/-
Verification of the zoom-transcript-qa backend against its specification.

Shallow embedding of the Python sources under src/backend/:
  * qna.py                -- analyze_transcript_chunk
  * app.py                -- meeting registry (meeting_clients), ws_endpoint
                             join/cleanup, broadcast_to_meeting, ingest_endpoint,
                             oauth_callback, debug_meetings, heartbeat loop
External effects (the OpenAI chat call, json.loads, wall-clock time, the
OAuth token exchange, websocket sends) are modelled as explicit parameters:
the upstream text and its parse outcome, the current time string, an
exchange oracle, and a per-connection send-failure predicate.
-/
import Mathlib

namespace ZoomQA

/-! ## JSON values

Python dicts are modelled as association lists (first occurrence wins on
lookup, as a parsed dict never has duplicate keys anyway).  JSON numbers are
modelled as integers: no claim depends on fractional values. -/

inductive Json where
  | null
  | bool (b : Bool)
  | num (n : Int)
  | str (s : String)
  | arr (xs : List Json)
  | obj (fields : List (String × Json))

/-- Lookup in a field list: Python `d[k]` / `d.get(k)`. -/
def getPairs : List (String × Json) → String → Option Json
  | [], _ => none
  | (k', v') :: rest, k => if k' = k then some v' else getPairs rest k

/-- Python `d.get(k)`; `none` when `k` is absent or the value is not a dict. -/
def Json.getField : Json → String → Option Json
  | .obj fs, k => getPairs fs k
  | _, _ => none

/-- Assignment in a field list: Python `d[k] = v` (update first occurrence,
else append). -/
def setPairs : List (String × Json) → String → Json → List (String × Json)
  | [], k, v => [(k, v)]
  | (k', v') :: rest, k, v =>
      if k' = k then (k, v) :: rest else (k', v') :: setPairs rest k v

/-- Python `d[k] = v` on a dict; identity on non-dicts (the embedding only
applies it to dicts). -/
def Json.setField : Json → String → Json → Json
  | .obj fs, k, v => .obj (setPairs fs k v)
  | j, _, _ => j

/-- Python truthiness of a JSON value. -/
def Json.truthy : Json → Bool
  | .null => false
  | .bool b => b
  | .num n => n ≠ 0
  | .str s => s ≠ ""
  | .arr xs => ¬ xs.isEmpty
  | .obj fs => ¬ fs.isEmpty

/-! ## qna.py -/

/-- `SAFETY_NOTE` from qna.py. -/
def SAFETY_NOTE : String :=
  "Important: The following content is for educational discussion only " ++
  "and is not medical advice. For clinical decisions, seek licensed supervision."

/-- Python `not text.strip()`: `text.strip()` is empty exactly when every
character of `text` is whitespace (vacuously for the empty string, which
also covers the `not text` disjunct). -/
def isBlank (text : String) : Bool :=
  text.toList.all Char.isWhitespace

/-- Observable behaviour of one COMPLETED upstream LLM round trip:
`content` is `resp.choices[0].message.content.strip()` and `parsed` is the
outcome of `json.loads(content)` (`none` when it raises).  The round trip
completing is an assumption of this structure: the call itself raising is
modelled by `UpstreamOutcome.raises` below. -/
structure Upstream where
  content : String
  parsed : Option Json

/-- The upstream round trip as qna.py actually observes it.  The call
`client.chat.completions.create(...)` (qna.py lines 62-69) and the content
extraction `resp.choices[0].message.content.strip()` (line 70) sit OUTSIDE
the `try` that begins at line 73, so an exception there (network failure,
rate limit, `content = None`) propagates out of analyze_transcript_chunk;
only a completed round trip yields an `Upstream`. -/
inductive UpstreamOutcome where
  | raises (e : String)
  | returns (up : Upstream)

/-- Fallback envelope built by the `except` branch of
`analyze_transcript_chunk` (qna.py lines 81-88). -/
def fallbackEnvelope (now : String) (raw : String) : Json :=
  .obj [("timestamp", .str (now ++ "Z")),
        ("questions", .arr []),
        ("note", .str SAFETY_NOTE),
        ("raw", .str raw),
        ("parse_error", .bool true)]

/-- `analyze_transcript_chunk(text)` from qna.py.  `now` stands for
`datetime.datetime.utcnow().isoformat()`; the returned Bool records whether
the upstream chat-completion call was made.

Faithful control flow: blank text returns early without calling upstream;
otherwise the parsed upstream output has `timestamp` and `note` overwritten
and `questions` defaulted to `[]` when absent or not a list.  A parse
failure, or a parsed value that is not a dict (so that the item assignment
`data["timestamp"] = ...` raises TypeError inside the same `try`), lands in
the fallback envelope.

Scope: this function models the run in which the upstream round trip
COMPLETED (it consumes an `Upstream`).  The full boundary, including the
uncaught exception path of the call itself, is `analyze_transcript_chunkE`
below, which delegates to this function once the round trip has returned. -/
def analyze_transcript_chunk (now : String) (up : Upstream) (text : String) :
    Json × Bool :=
  if isBlank text then
    (.obj [("timestamp", .str (now ++ "Z")),
           ("questions", .arr []),
           ("note", .str SAFETY_NOTE)], false)
  else
    match up.parsed with
    | some (.obj fs) =>
        let d1 := Json.setField (.obj fs) "timestamp" (.str (now ++ "Z"))
        let d2 := d1.setField "note" (.str SAFETY_NOTE)
        let d3 :=
          match d2.getField "questions" with
          | some (.arr _) => d2
          | _ => d2.setField "questions" (.arr [])
        (d3, true)
    | some _ => (fallbackEnvelope now up.content, true)
    | none => (fallbackEnvelope now up.content, true)

/-- `analyze_transcript_chunk(text)` INCLUDING its uncaught exception
path.  Blank text returns before the upstream call is ever made; for
non-blank text, a raising upstream call propagates out of the function
(`Except.error`, qna.py lines 62-70 are outside the `try`), while a
completed round trip lands in the guarded envelope logic of
`analyze_transcript_chunk`, which never raises. -/
def analyze_transcript_chunkE (now : String) (o : UpstreamOutcome)
    (text : String) : Except String (Json × Bool) :=
  if isBlank text then
    .ok (.obj [("timestamp", .str (now ++ "Z")),
               ("questions", .arr []),
               ("note", .str SAFETY_NOTE)], false)
  else
    match o with
    | .raises e => .error e
    | .returns up => .ok (analyze_transcript_chunk now up text)

/-! ## app.py: meeting registry and broadcaster

`meeting_clients : Dict[str, Set[WebSocket]]` is modelled as an association
list from meeting id to member list; websocket handles are opaque naturals.
All registry operations run under `meeting_lock` in the source, so each one
is a single atomic step here. -/

abbrev MeetingId := String
abbrev Conn := Nat

abbrev Registry := List (MeetingId × List Conn)

/-- `meeting_clients.get(m)`: the stored member set of `m`, when present. -/
def getClients (r : Registry) (m : MeetingId) : Option (List Conn) :=
  (r.find? (fun p => p.1 = m)).map (fun p => p.2)

/-- `meeting_clients.get(m, set())`: members of `m`, defaulting to empty. -/
def members (r : Registry) (m : MeetingId) : List Conn :=
  (getClients r m).getD []

/-- Python `set.add`. -/
def setAdd (s : List Conn) (c : Conn) : List Conn :=
  if c ∈ s then s else s ++ [c]

/-- Python `set.discard`. -/
def setDiscard (s : List Conn) (c : Conn) : List Conn :=
  s.filter (fun x => x ≠ c)

/-- In-place update of the set stored under key `m` (Python mutates the
set object held in the dict, leaving every other key untouched). -/
def updateKey (r : Registry) (m : MeetingId) (g : List Conn → List Conn) : Registry :=
  r.map (fun p => if p.1 = m then (p.1, g p.2) else p)

/-- ws_endpoint join (app.py lines 64-65):
`meeting_clients.setdefault(meeting_id, set()).add(websocket)`. -/
def joinOp (r : Registry) (m : MeetingId) (c : Conn) : Registry :=
  if (r.find? (fun p => p.1 = m)).isSome then
    updateKey r m (fun s => setAdd s c)
  else
    r ++ [(m, [c])]

/-- ws_endpoint cleanup (app.py lines 80-84): discard the websocket from
the meeting's set and pop the key when the set becomes empty. -/
def leaveOp (r : Registry) (m : MeetingId) (c : Conn) : Registry :=
  let clients := setDiscard (members r m) c
  if clients.isEmpty then
    r.filter (fun p => p.1 ≠ m)
  else
    updateKey r m (fun _ => clients)

/-- The send loop of broadcast_to_meeting (app.py lines 92-97): walk the
snapshot, attempt a send to every connection, and collect the ones whose
send raised (`fails c = true`) as dead.  Returns (attempted, dead). -/
def sendLoop (fails : Conn → Bool) : List Conn → List Conn × List Conn
  | [] => ([], [])
  | c :: cs =>
      let rest := sendLoop fails cs
      (c :: rest.1, if fails c then c :: rest.2 else rest.2)

/-- Dead-connection cleanup of broadcast_to_meeting (app.py lines 99-102):
`if dead_connections:` then discard each from `meeting_clients[m]`.
Note: unlike `leaveOp`, an emptied set is NOT popped here. -/
def broadcastPrune (r : Registry) (m : MeetingId) (dead : List Conn) : Registry :=
  if dead.isEmpty then r
  else updateKey r m (fun s => s.filter (fun x => x ∉ dead))

structure BroadcastResult where
  attempted : List Conn
  registry : Registry

/-- `broadcast_to_meeting(meeting_id, message)` (app.py lines 87-102).
The message itself does not influence registry evolution; the outcome of
each `ws.send_text` is the oracle `fails`. -/
def broadcast_to_meeting (fails : Conn → Bool) (r : Registry) (m : MeetingId) :
    BroadcastResult :=
  let snap := members r m
  let res := sendLoop fails snap
  { attempted := res.1, registry := broadcastPrune r m res.2 }

/-- `/debug/meetings` (app.py lines 238-245): active meeting ids and
per-meeting connection counts, read in one locked section. -/
def debug_meetings (r : Registry) : List MeetingId × List (MeetingId × Nat) :=
  (r.map (fun p => p.1), r.map (fun p => (p.1, p.2.length)))

/-- The connection count `/debug/meetings` reports for `m`. -/
def debugCount (r : Registry) (m : MeetingId) : Option Nat :=
  ((debug_meetings r).2.find? (fun p => p.1 = m)).map (fun p => p.2)

/-! ### Registry event traces -/

/-- One serialized registry operation: a ws_endpoint join, a ws_endpoint
cleanup leave, or a broadcast (whose send outcomes are `fails`). -/
inductive Event where
  | join (m : MeetingId) (c : Conn)
  | leave (m : MeetingId) (c : Conn)
  | bcast (m : MeetingId) (fails : Conn → Bool)

def Event.isBcast : Event → Bool
  | .bcast _ _ => true
  | _ => false

def step (r : Registry) : Event → Registry
  | .join m c => joinOp r m c
  | .leave m c => leaveOp r m c
  | .bcast m fails => (broadcast_to_meeting fails r m).registry

def runFrom (r : Registry) (tr : List Event) : Registry :=
  tr.foldl step r

/-- Registry reached from the empty initial `meeting_clients = {}`. -/
def run (tr : List Event) : Registry :=
  runFrom [] tr

/-- The spec invariant: a meeting id key exists iff its connection set is
non-empty (every stored entry is non-empty). -/
def Inv (r : Registry) : Bool :=
  r.all (fun p => ¬ p.2.isEmpty)

/-- Is `c` currently a member of any meeting's stored set? -/
def isMemberSomewhere (r : Registry) (c : Conn) : Bool :=
  r.any (fun p => p.2.contains c)

/-- Traces produced by ws_endpoint join each freshly-accepted websocket
object exactly once: at each join the handle is not yet registered
anywhere. -/
def FreshJoins (r : Registry) : List Event → Bool
  | [] => true
  | .join m c :: tr => ¬ isMemberSomewhere r c && FreshJoins (step r (.join m c)) tr
  | .leave m c :: tr => FreshJoins (step r (.leave m c)) tr
  | .bcast m fails :: tr => FreshJoins (step r (.bcast m fails)) tr

/-! ## app.py: ingest endpoint -/

/-- A message handed to broadcast_to_meeting by the ingest endpoint. -/
inductive Msg where
  | transcript (text : String)
  | qna (data : Json)

structure IngestResult where
  /-- JSON body of the HTTP response. -/
  response : Json
  /-- broadcast_to_meeting calls issued, in order: (meeting id, message). -/
  broadcasts : List (MeetingId × Msg)
  /-- Whether `analyze_transcript_chunk` was invoked. -/
  analysisCalled : Bool

/-- `POST /ingest` (app.py lines 178-192): blank text short-circuits to a
skipped acknowledgment; otherwise a transcript broadcast, then the
analysis call, then a qna broadcast carrying its result.

Scope: this function models the run in which the analysis round trip
COMPLETED.  The full boundary, including the run where
analyze_transcript_chunk raises after the transcript broadcast (app.py
line 189 has no `try` around it), is `ingest_endpointE` below. -/
def ingest_endpoint (now : String) (up : Upstream) (meeting_id text : String) :
    IngestResult :=
  if isBlank text then
    { response := .obj [("ok", .bool true), ("skipped", .bool true)],
      broadcasts := [],
      analysisCalled := false }
  else
    let q := (analyze_transcript_chunk now up text).1
    { response := .obj [("ok", .bool true)],
      broadcasts := [(meeting_id, .transcript text), (meeting_id, .qna q)],
      analysisCalled := true }

structure IngestOutcome where
  /-- broadcast_to_meeting calls issued, in order, before the handler
  returned or aborted. -/
  broadcasts : List (MeetingId × Msg)
  /-- JSON body of the HTTP response, or (`Except.error`) the exception
  that propagated out of the handler. -/
  result : Except String Json
  /-- Whether the analysis was invoked. -/
  analysisCalled : Bool

/-- `POST /ingest` INCLUDING the uncaught exception path of the analysis
call.  For non-blank text the transcript broadcast is emitted first
(app.py line 188); `analyze_transcript_chunk` then runs with no `try`
around it (line 189), so if the upstream call raises, the handler aborts:
the qna broadcast is never emitted and the exception propagates to the
framework.  Only when the analysis returns does the qna broadcast follow
(line 190) and the ok acknowledgment get returned. -/
def ingest_endpointE (now : String) (o : UpstreamOutcome)
    (meeting_id text : String) : IngestOutcome :=
  if isBlank text then
    { broadcasts := [],
      result := .ok (.obj [("ok", .bool true), ("skipped", .bool true)]),
      analysisCalled := false }
  else
    match analyze_transcript_chunkE now o text with
    | .error e =>
        { broadcasts := [(meeting_id, .transcript text)],
          result := .error e,
          analysisCalled := true }
    | .ok q =>
        { broadcasts := [(meeting_id, .transcript text), (meeting_id, .qna q.1)],
          result := .ok (.obj [("ok", .bool true)]),
          analysisCalled := true }

/-! ## app.py: ws_endpoint keep-alive loop

Lines 67-74: each turn of the `while True` loop awaits
`wait_for(receive_text(), timeout=30.0)`.  One `timeout` outcome stands for
one full 30-time-unit idle interval elapsing with no inbound message; a
`message` outcome is an inbound client message arriving within the window;
`disconnect` is WebSocketDisconnect (or any other receive error), which
exits the loop into cleanup. -/

inductive WaitOutcome where
  | timeout
  | message (s : String)
  | disconnect

def WaitOutcome.isTimeout : WaitOutcome → Bool
  | .timeout => true
  | _ => false

def WaitOutcome.isDisconnect : WaitOutcome → Bool
  | .disconnect => true
  | _ => false

/-- Heartbeat payload sent on idle timeout. -/
inductive ServerMsg where
  | heartbeat

/-- Messages the keep-alive loop sends for a given schedule of wait
outcomes: a heartbeat on every timeout, nothing on an inbound message
(discarded), loop exit on disconnect. -/
def wsKeepAliveSends : List WaitOutcome → List ServerMsg
  | [] => []
  | .timeout :: rest => .heartbeat :: wsKeepAliveSends rest
  | .message _ :: rest => wsKeepAliveSends rest
  | .disconnect :: _ => []

/-! ## app.py: OAuth callback -/

/-- An HTTP request as oauth_callback observes it: method, query
parameters, and the form body (`none` when `request.form()` raises). -/
structure OAuthRequest where
  method : String
  query : List (String × String)
  form : Option (List (String × String))

/-- `params.get(k)`. -/
def qget (ps : List (String × String)) (k : String) : Option String :=
  (ps.find? (fun p => p.1 = k)).map (fun p => p.2)

/-- Python truthiness of `params.get(k)`: present and non-empty. -/
def truthy : Option String → Bool
  | none => false
  | some s => s ≠ ""

/-- The HTTP response of oauth_callback.  `status` is kept as a JSON value
because the token-error branch passes `token_payload.get("status", 502)`
straight through as the status code. -/
structure Response where
  status : Json
  body : Json

/-- Outcome of `exchange_code_for_token(code)`: a payload, or an exception
propagating out of the call (caught by oauth_callback's `try`). -/
def ExchangeOracle := String → Except String Json

/-- Python `x == 200` for an optional JSON value (only the number 200
compares equal to 200). -/
def isNum200 : Option Json → Bool
  | some (.num n) => n = 200
  | _ => false

/-- Python dict-literal merge `\x7b"k": v, **d\x7d`: later entries
overwrite earlier ones. -/
def mergePairs (base : List (String × Json)) : List (String × Json) → List (String × Json)
  | [] => base
  | (k, v) :: rest => mergePairs (setPairs base k v) rest

/-- `/oauth/callback` (app.py lines 105-168).  `ex` is the token-exchange
oracle.  Mirrors the source: query `code`, falling back to the form body on
POST (a form-parse failure leaves `code` unchanged); with no truthy code,
a truthy `error` query parameter yields the authorize-stage envelope, else
the missing_code envelope, both 400; with a code, the exchange result is
screened for a non-200 `status` field, then an `error` key, before being
returned as-is; an exchange exception yields a 500 envelope. -/
def oauth_callback (ex : ExchangeOracle) (req : OAuthRequest) : Response :=
  let code0 := qget req.query "code"
  let code :=
    if ¬ truthy code0 ∧ req.method = "POST" then
      match req.form with
      | some f => qget f "code"
      | none => code0
    else code0
  if ¬ truthy code then
    let authError := qget req.query "error"
    if truthy authError then
      { status := .num 400,
        body := .obj [("stage", .str "authorize"),
                      ("error", .str (authError.getD "")),
                      ("error_description",
                       .str ((qget req.query "error_description").getD ""))] }
    else
      { status := .num 400,
        body := .obj [("error", .str "missing_code"),
                      ("detail", .str "No authorization code provided")] }
  else
    match ex (code.getD "") with
    | .error e =>
        { status := .num 500,
          body := .obj [("error", .str "token_exchange_failed"),
                        ("detail", .str e)] }
    | .ok payload =>
        match payload with
        | .obj fs =>
            let st := getPairs fs "status"
            if (st.getD .null).truthy ∧ ¬ isNum200 st then
              { status := st.getD (.num 502),
                body := .obj (mergePairs [("stage", .str "token")] fs) }
            else if (getPairs fs "error").isSome then
              { status := .num 400,
                body := .obj (mergePairs [("stage", .str "zoom_api")] fs) }
            else
              { status := .num 200, body := payload }
        | _ => { status := .num 200, body := payload }

/-! ## Field lookup and assignment lemmas -/

theorem getPairs_setPairs_same (fs : List (String × Json)) (k : String) (v : Json) :
    getPairs (setPairs fs k v) k = some v := by
  induction fs with
  | nil => simp [setPairs, getPairs]
  | cons p rest ih =>
      by_cases h : p.1 = k
      · simp [setPairs, getPairs, h]
      · simp [setPairs, getPairs, h, ih]

theorem getPairs_setPairs_other (fs : List (String × Json)) (k k' : String) (v : Json)
    (h : k' ≠ k) : getPairs (setPairs fs k' v) k = getPairs fs k := by
  induction fs with
  | nil => simp [setPairs, getPairs, h]
  | cons p rest ih =>
      by_cases hp : p.1 = k'
      · simp [setPairs, getPairs, hp, h]
      · simp [setPairs, getPairs, hp, ih]

/-- In every non-blank branch, `analyze_transcript_chunk` stamps the
current time and the safety note into the envelope it returns. -/
theorem analysis_stamp (now : String) (up : Upstream) (text : String)
    (h : isBlank text = false) :
    Json.getField (analyze_transcript_chunk now up text).1 "timestamp" =
      some (.str (now ++ "Z")) ∧
    Json.getField (analyze_transcript_chunk now up text).1 "note" =
      some (.str SAFETY_NOTE) := by
  unfold analyze_transcript_chunk
  rw [if_neg (by simp [h])]
  cases hp : up.parsed with
  | none => simp [fallbackEnvelope, Json.getField, getPairs]
  | some j =>
      cases j with
      | obj fs =>
          simp only [Json.setField, Json.getField]
          have hts : getPairs (setPairs (setPairs fs "timestamp" (.str (now ++ "Z")))
              "note" (.str SAFETY_NOTE)) "timestamp" = some (.str (now ++ "Z")) := by
            rw [getPairs_setPairs_other _ _ _ _ (by decide), getPairs_setPairs_same]
          have hnote : getPairs (setPairs (setPairs fs "timestamp" (.str (now ++ "Z")))
              "note" (.str SAFETY_NOTE)) "note" = some (.str SAFETY_NOTE) :=
            getPairs_setPairs_same _ _ _
          cases hq : getPairs (setPairs (setPairs fs "timestamp" (.str (now ++ "Z")))
              "note" (.str SAFETY_NOTE)) "questions" with
          | none =>
              simp only [hq, Json.setField, Json.getField]
              constructor
              · rw [getPairs_setPairs_other _ _ _ _ (by decide)]; exact hts
              · rw [getPairs_setPairs_other _ _ _ _ (by decide)]; exact hnote
          | some jq =>
              cases jq <;>
                simp only [hq, Json.setField, Json.getField] <;>
                constructor <;>
                first
                  | (rw [getPairs_setPairs_other _ _ _ _ (by decide)]; assumption)
                  | assumption
      | null => simp [fallbackEnvelope, Json.getField, getPairs]
      | bool b => simp [fallbackEnvelope, Json.getField, getPairs]
      | num n => simp [fallbackEnvelope, Json.getField, getPairs]
      | str s => simp [fallbackEnvelope, Json.getField, getPairs]
      | arr xs => simp [fallbackEnvelope, Json.getField, getPairs]

/-! ## Broadcast loop lemmas -/

theorem sendLoop_fst (fails : Conn → Bool) (s : List Conn) :
    (sendLoop fails s).1 = s := by
  induction s with
  | nil => rfl
  | cons c cs ih => simp [sendLoop, ih]

theorem mem_sendLoop_snd (fails : Conn → Bool) (s : List Conn) (x : Conn) :
    x ∈ (sendLoop fails s).2 ↔ x ∈ s ∧ fails x = true := by
  induction s with
  | nil => simp [sendLoop]
  | cons c cs ih =>
      by_cases hc : fails c
      · simp only [sendLoop, hc, if_pos]
        constructor
        · intro hx
          rcases List.mem_cons.1 hx with h | h
          · exact ⟨by simp [h], h ▸ hc⟩
          · exact ⟨List.mem_cons_of_mem _ (ih.1 h).1, (ih.1 h).2⟩
        · rintro ⟨hx, hfx⟩
          rcases List.mem_cons.1 hx with h | h
          · exact h ▸ List.mem_cons_self _ _
          · exact List.mem_cons_of_mem _ (ih.2 ⟨h, hfx⟩)
      · simp only [sendLoop, hc, if_neg, Bool.false_eq_true, not_false_iff]
        rw [ih]
        constructor
        · rintro ⟨hx, hfx⟩; exact ⟨List.mem_cons_of_mem _ hx, hfx⟩
        · rintro ⟨hx, hfx⟩
          rcases List.mem_cons.1 hx with h | h
          · exact absurd (h ▸ hfx) (by simpa using hc)
          · exact ⟨h, hfx⟩

theorem broadcast_attempted (fails : Conn → Bool) (r : Registry) (m : MeetingId) :
    (broadcast_to_meeting fails r m).attempted = members r m := by
  simp [broadcast_to_meeting, sendLoop_fst]

/-! ## Registry lookup lemmas -/

theorem getClients_cons (k : MeetingId) (s : List Conn) (r : Registry) (m : MeetingId) :
    getClients ((k, s) :: r) m = if k = m then some s else getClients r m := by
  by_cases h : k = m <;> simp [getClients, List.find?, h]

theorem getClients_append (r r' : Registry) (m : MeetingId) :
    getClients (r ++ r') m =
      match getClients r m with
      | some s => some s
      | none => getClients r' m := by
  induction r with
  | nil => simp [getClients]
  | cons p rest ih =>
      obtain ⟨k, s⟩ := p
      by_cases h : k = m <;> simp [getClients_cons, h, ih]

theorem updateKey_cons (k : MeetingId) (s : List Conn) (rest : Registry)
    (m : MeetingId) (g : List Conn → List Conn) :
    updateKey ((k, s) :: rest) m g =
      (if k = m then (k, g s) else (k, s)) :: updateKey rest m g := by
  by_cases h : k = m <;> simp [updateKey, h]

theorem getClients_updateKey_same (r : Registry) (m : MeetingId)
    (g : List Conn → List Conn) :
    getClients (updateKey r m g) m = (getClients r m).map g := by
  induction r with
  | nil => rfl
  | cons p rest ih =>
      obtain ⟨k, s⟩ := p
      by_cases hk : k = m
      · rw [updateKey_cons, if_pos hk, getClients_cons, getClients_cons,
          if_pos hk, if_pos hk]
        simp
      · rw [updateKey_cons, if_neg hk, getClients_cons, getClients_cons,
          if_neg hk, if_neg hk, ih]

theorem getClients_updateKey_other (r : Registry) (m m' : MeetingId)
    (g : List Conn → List Conn) (h : m' ≠ m) :
    getClients (updateKey r m g) m' = getClients r m' := by
  induction r with
  | nil => rfl
  | cons p rest ih =>
      obtain ⟨k, s⟩ := p
      by_cases hk : k = m
      · have hk' : ¬ k = m' := fun he => h (he.symm.trans hk)
        rw [updateKey_cons, if_pos hk, getClients_cons, getClients_cons,
          if_neg hk', if_neg hk', ih]
      · by_cases hk2 : k = m'
        · rw [updateKey_cons, if_neg hk, getClients_cons, getClients_cons,
            if_pos hk2, if_pos hk2]
        · rw [updateKey_cons, if_neg hk, getClients_cons, getClients_cons,
            if_neg hk2, if_neg hk2, ih]

theorem getClients_filterKey_same (r : Registry) (m : MeetingId) :
    getClients (r.filter (fun p => p.1 ≠ m)) m = none := by
  induction r with
  | nil => rfl
  | cons p rest ih =>
      obtain ⟨k, s⟩ := p
      by_cases h : k = m
      · simpa [List.filter_cons, h] using ih
      · simpa [List.filter_cons, h, getClients_cons] using ih

theorem getClients_filterKey_other (r : Registry) (m m' : MeetingId) (h : m' ≠ m) :
    getClients (r.filter (fun p => p.1 ≠ m)) m' = getClients r m' := by
  induction r with
  | nil => rfl
  | cons p rest ih =>
      obtain ⟨k, s⟩ := p
      by_cases hk : k = m
      · simpa [List.filter_cons, hk, getClients_cons, Ne.symm h] using ih
      · by_cases hk' : k = m'
        · simp [List.filter_cons, hk, hk', h, getClients_cons]
        · simpa [List.filter_cons, hk, hk', h, getClients_cons] using ih

theorem debugCount_eq (r : Registry) (m : MeetingId) :
    debugCount r m = (getClients r m).map List.length := by
  induction r with
  | nil => rfl
  | cons p rest ih =>
      obtain ⟨k, s⟩ := p
      by_cases h : k = m
      · simp [debugCount, debug_meetings, getClients_cons, List.find?, h]
      · simp only [debugCount, debug_meetings, getClients_cons, List.map_cons,
          List.find?, h, decide_eq_true_eq, if_neg h]
        simpa [debugCount, debug_meetings] using ih

/-! ## Registry invariant lemmas -/

theorem setAdd_isEmpty (s : List Conn) (c : Conn) : (setAdd s c).isEmpty = false := by
  unfold setAdd
  split
  · next h => cases s with
      | nil => simp at h
      | cons a t => rfl
  · cases s <;> rfl

theorem mem_setAdd (s : List Conn) (c x : Conn) :
    x ∈ setAdd s c ↔ x ∈ s ∨ x = c := by
  unfold setAdd
  split
  · next h =>
      constructor
      · exact fun hx => Or.inl hx
      · rintro (hx | rfl)
        · exact hx
        · exact h
  · simp [List.mem_append]

theorem mem_setDiscard (s : List Conn) (c x : Conn) :
    x ∈ setDiscard s c ↔ x ∈ s ∧ x ≠ c := by
  simp [setDiscard]

theorem Inv_joinOp (r : Registry) (m : MeetingId) (c : Conn) (h : Inv r = true) :
    Inv (joinOp r m c) = true := by
  unfold joinOp
  split
  · simp only [Inv, updateKey, List.all_eq_true] at *
    intro p hp
    rw [List.mem_map] at hp
    obtain ⟨q, hq, rfl⟩ := hp
    by_cases hq1 : q.1 = m
    · simp [hq1, setAdd_isEmpty]
    · simpa [hq1] using h q hq
  · simp only [Inv, List.all_eq_true] at *
    intro p hp
    rcases List.mem_append.1 hp with hp | hp
    · exact h p hp
    · simp at hp
      simp [hp]

theorem Inv_leaveOp (r : Registry) (m : MeetingId) (c : Conn) (h : Inv r = true) :
    Inv (leaveOp r m c) = true := by
  simp only [leaveOp]
  split
  · simp only [Inv, List.all_eq_true] at *
    intro p hp
    exact h p (List.mem_of_mem_filter hp)
  · next hne =>
    simp only [Inv, updateKey, List.all_eq_true] at *
    intro p hp
    rw [List.mem_map] at hp
    obtain ⟨q, hq, rfl⟩ := hp
    by_cases hq1 : q.1 = m
    · simpa [hq1] using hne
    · simpa [hq1] using h q hq

/-! ## Membership evolution lemmas -/

theorem members_joinOp_same (r : Registry) (m : MeetingId) (c : Conn) :
    members (joinOp r m c) m = setAdd (members r m) c := by
  unfold joinOp
  split
  · next hf =>
      unfold members
      rw [getClients_updateKey_same]
      cases hg : getClients r m with
      | some s => simp
      | none =>
          exfalso
          unfold getClients at hg
          cases hfind : r.find? (fun p => p.1 = m) with
          | none => rw [hfind] at hf; simp at hf
          | some p => rw [hfind] at hg; simp at hg
  · next hf =>
      unfold members
      rw [getClients_append]
      have hg : getClients r m = none := by
        unfold getClients
        cases hfind : r.find? (fun p => p.1 = m) with
        | none => rfl
        | some p => rw [hfind] at hf; simp at hf
      rw [hg]
      simp [getClients_cons, setAdd, hg, members]

theorem members_joinOp_other (r : Registry) (m m' : MeetingId) (c : Conn)
    (h : m' ≠ m) : members (joinOp r m c) m' = members r m' := by
  unfold joinOp
  split
  · unfold members
    rw [getClients_updateKey_other _ _ _ _ h]
  · unfold members
    rw [getClients_append]
    cases getClients r m' <;> simp [getClients, getClients_cons, Ne.symm h]

theorem members_leaveOp_subset (r : Registry) (m : MeetingId) (c : Conn)
    (m' : MeetingId) (x : Conn) (hx : x ∈ members (leaveOp r m c) m') :
    x ∈ members r m' := by
  simp only [leaveOp] at hx
  by_cases hm' : m' = m
  · subst hm'
    split at hx
    · rw [members, getClients_filterKey_same] at hx
      simp at hx
    · rw [members, getClients_updateKey_same] at hx
      cases hg : getClients r m' with
      | none => rw [hg] at hx; simp at hx
      | some s =>
          rw [hg] at hx
          simp at hx
          have hmem : x ∈ setDiscard (members r m') c := hx
          rw [mem_setDiscard] at hmem
          exact hmem.1
  · split at hx
    · rw [members, getClients_filterKey_other _ _ _ hm'] at hx
      exact hx
    · rw [members, getClients_updateKey_other _ _ _ _ hm'] at hx
      exact hx

theorem members_prune_subset (r : Registry) (m : MeetingId) (dead : List Conn)
    (m' : MeetingId) (x : Conn) (hx : x ∈ members (broadcastPrune r m dead) m') :
    x ∈ members r m' := by
  unfold broadcastPrune at hx
  split at hx
  · exact hx
  · by_cases hm' : m' = m
    · subst hm'
      rw [members, getClients_updateKey_same] at hx
      cases hg : getClients r m' with
      | none => rw [hg] at hx; simp at hx
      | some s =>
          rw [hg] at hx
          simp at hx
          rw [members, hg]
          simpa using hx.1
    · rw [members, getClients_updateKey_other _ _ _ _ hm'] at hx
      exact hx

/-! ## At-most-one-meeting invariant -/

/-- The spec invariant that a connection belongs to at most one meeting at
a time, read through `members`. -/
def AtMostOne (r : Registry) : Prop :=
  ∀ c m1 m2, c ∈ members r m1 → c ∈ members r m2 → m1 = m2

theorem atMostOne_of_subset (r r' : Registry)
    (hsub : ∀ x m', x ∈ members r' m' → x ∈ members r m')
    (h : AtMostOne r) : AtMostOne r' :=
  fun c m1 m2 h1 h2 => h c m1 m2 (hsub _ _ h1) (hsub _ _ h2)

theorem not_member_of_fresh (r : Registry) (c : Conn)
    (h : isMemberSomewhere r c = false) (m : MeetingId) : c ∉ members r m := by
  intro hc
  rw [members] at hc
  cases hf : getClients r m with
  | none => rw [hf] at hc; simp at hc
  | some s =>
      rw [hf] at hc
      simp only [Option.getD_some] at hc
      unfold getClients at hf
      cases hfind : r.find? (fun p => p.1 = m) with
      | none => rw [hfind] at hf; simp at hf
      | some p =>
          rw [hfind] at hf
          have hf2 : p.2 = s := by simpa using hf
          have hp : p ∈ r := List.mem_of_find?_eq_some hfind
          have hall : ∀ a b, (a, b) ∈ r → c ∉ b := by
            simpa [isMemberSomewhere, List.any_eq_false] using h
          exact hall p.1 p.2 (by simpa using hp) (by rw [hf2]; exact hc)

theorem atMostOne_joinOp (r : Registry) (m : MeetingId) (c : Conn)
    (h : AtMostOne r) (hfresh : isMemberSomewhere r c = false) :
    AtMostOne (joinOp r m c) := by
  intro x m1 m2 h1 h2
  by_cases hm1 : m1 = m
  · by_cases hm2 : m2 = m
    · rw [hm1, hm2]
    · rw [members_joinOp_other r m m2 c hm2] at h2
      rw [hm1, members_joinOp_same] at h1
      rw [hm1]
      rcases (mem_setAdd _ _ _).1 h1 with hx | hxc
      · exact h x m m2 hx h2
      · exact absurd h2 (by rw [hxc]; exact not_member_of_fresh r c hfresh m2)
  · by_cases hm2 : m2 = m
    · rw [members_joinOp_other r m m1 c hm1] at h1
      rw [hm2, members_joinOp_same] at h2
      rw [hm2]
      rcases (mem_setAdd _ _ _).1 h2 with hx | hxc
      · exact h x m1 m h1 hx
      · exact absurd h1 (by rw [hxc]; exact not_member_of_fresh r c hfresh m1)
    · rw [members_joinOp_other r m m1 c hm1] at h1
      rw [members_joinOp_other r m m2 c hm2] at h2
      exact h x m1 m2 h1 h2

theorem atMostOne_runFrom (tr : List Event) (r : Registry) (h : AtMostOne r)
    (hf : FreshJoins r tr = true) : AtMostOne (runFrom r tr) := by
  induction tr generalizing r with
  | nil => exact h
  | cons e rest ih =>
      cases e with
      | join m c =>
          rw [FreshJoins, Bool.and_eq_true] at hf
          exact ih _ (atMostOne_joinOp _ _ _ h (by simpa using hf.1)) hf.2
      | leave m c =>
          rw [FreshJoins] at hf
          exact ih _
            (atMostOne_of_subset _ _
              (fun x m' hx => members_leaveOp_subset r m c m' x hx) h) hf
      | bcast m fails =>
          rw [FreshJoins] at hf
          refine ih _ (atMostOne_of_subset _ _ (fun x m' hx => ?_) h) hf
          have : step r (.bcast m fails) =
              broadcastPrune r m (sendLoop fails (members r m)).2 := rfl
          rw [this] at hx
          exact members_prune_subset _ _ _ _ _ hx

theorem atMostOne_run (tr : List Event) (hf : FreshJoins [] tr = true) :
    AtMostOne (run tr) := by
  refine atMostOne_runFrom tr [] ?_ hf
  intro c m1 m2 h1 h2
  simp [members, getClients] at h1

theorem Inv_runFrom (tr : List Event) (r : Registry) (hr : Inv r = true)
    (h : ∀ e ∈ tr, e.isBcast = false) : Inv (runFrom r tr) = true := by
  induction tr generalizing r with
  | nil => exact hr
  | cons e rest ih =>
      have he : e.isBcast = false := h e (List.mem_cons_self _ _)
      have hrest : ∀ e' ∈ rest, e'.isBcast = false :=
        fun e' h' => h e' (List.mem_cons_of_mem _ h')
      cases e with
      | join m c => exact ih _ (Inv_joinOp r m c hr) hrest
      | leave m c => exact ih _ (Inv_leaveOp r m c hr) hrest
      | bcast m fails => simp [Event.isBcast] at he

/-! ## Claims -/

/-- C1 counterexample: the claim is false for broadcast-triggered removal.
Join one client to meeting "m", then broadcast while its send fails: the
dead connection is discarded but the emptied set is not popped (app.py
lines 99-102 discard without `pop`), so key "m" remains with an empty
connection set and the key-exists-iff-non-empty invariant is violated. -/
theorem C1_counterexample :
    getClients (run [.join "m" 0, .bcast "m" (fun _ => true)]) "m" = some [] ∧
    Inv (run [.join "m" 0, .bcast "m" (fun _ => true)]) = false :=
  ⟨rfl, rfl⟩

/-- C1 (amended): after every websocket join and every websocket-cleanup
leave, a meeting_id key exists in meeting_clients iff its connection set is
non-empty (empty sets are pruned immediately on those paths).  The
broadcast-triggered removal in broadcast_to_meeting does not prune an
emptied set, so traces are restricted to join/leave operations.  The
statement quantifies over all join/leave traces from the empty registry and
is prefix-closed, so the invariant holds after every call. -/
theorem C1_join_leave_invariant (tr : List Event)
    (h : ∀ e ∈ tr, e.isBcast = false) : Inv (run tr) = true :=
  Inv_runFrom tr [] rfl h

theorem C1_join_leave_invariant_witness :
    (∀ e ∈ [Event.join "m" 0, Event.join "m" 1, Event.leave "m" 0,
            Event.leave "m" 1], e.isBcast = false) ∧
    Inv (run [Event.join "m" 0, Event.join "m" 1, Event.leave "m" 0,
              Event.leave "m" 1]) = true :=
  ⟨by decide, C1_join_leave_invariant _ (by decide)⟩

/-- C2 counterexample: the claim fails when the analysis call raises.
qna.py's upstream call (lines 62-70) sits outside its `try`, and app.py
line 189 wraps the analysis in no `try` either: ingesting the non-blank
text with a raising upstream emits the transcript broadcast and then
aborts, so no qna broadcast ever follows — the broadcast list is
`[transcript]` alone, not transcript-then-qna. -/
theorem C2_counterexample :
    isBlank "Any questions about wound care?" = false ∧
    (ingest_endpointE "T" (.raises "APIConnectionError") "m"
        "Any questions about wound care?").broadcasts =
      [("m", .transcript "Any questions about wound care?")] ∧
    (ingest_endpointE "T" (.raises "APIConnectionError") "m"
        "Any questions about wound care?").result =
      .error "APIConnectionError" :=
  ⟨by decide, rfl, rfl⟩

/-- C2 (amended): for every non-blank ingested text the transcript
broadcast carrying that exact text is emitted first; when the analysis
call returns normally, exactly one qna broadcast follows it, strictly
after, and the qna payload carries a (non-null) string timestamp and the
fixed safety note; when the analysis call raises, the qna broadcast is
never emitted (the transcript broadcast alone has been delivered) and the
exception propagates out of the handler. -/
theorem C2_transcript_then_qna (now : String) (o : UpstreamOutcome)
    (meeting_id text : String) (h : isBlank text = false) :
    (∀ up, o = .returns up →
      (ingest_endpointE now o meeting_id text).broadcasts =
        [(meeting_id, .transcript text),
         (meeting_id, .qna (analyze_transcript_chunk now up text).1)] ∧
      Json.getField (analyze_transcript_chunk now up text).1 "timestamp" =
        some (.str (now ++ "Z")) ∧
      Json.getField (analyze_transcript_chunk now up text).1 "note" =
        some (.str SAFETY_NOTE)) ∧
    (∀ e, o = .raises e →
      (ingest_endpointE now o meeting_id text).broadcasts =
        [(meeting_id, .transcript text)] ∧
      (ingest_endpointE now o meeting_id text).result = .error e) := by
  constructor
  · rintro up rfl
    refine ⟨?_, analysis_stamp now up text h⟩
    simp [ingest_endpointE, analyze_transcript_chunkE, h]
  · rintro e rfl
    constructor <;> simp [ingest_endpointE, analyze_transcript_chunkE, h]

theorem C2_transcript_then_qna_witness :
    isBlank "Any questions about wound care?" = false ∧
    ((ingest_endpointE "T" (.returns ⟨"x", none⟩) "m"
        "Any questions about wound care?").broadcasts =
      [("m", .transcript "Any questions about wound care?"),
       ("m", .qna (analyze_transcript_chunk "T" ⟨"x", none⟩
                     "Any questions about wound care?").1)] ∧
    Json.getField (analyze_transcript_chunk "T" ⟨"x", none⟩
        "Any questions about wound care?").1 "timestamp" = some (.str ("T" ++ "Z")) ∧
    Json.getField (analyze_transcript_chunk "T" ⟨"x", none⟩
        "Any questions about wound care?").1 "note" = some (.str SAFETY_NOTE)) :=
  ⟨by decide,
   (C2_transcript_then_qna "T" (.returns ⟨"x", none⟩) "m"
      "Any questions about wound care?" (by decide)).1 ⟨"x", none⟩ rfl⟩

/-- C3 counterexample: the never-raises clause is false for the full
boundary.  The upstream call `client.chat.completions.create` and the
content extraction (qna.py lines 62-70) are outside the `try` that begins
at line 73, so an exception there propagates out of
analyze_transcript_chunk instead of returning an envelope: on non-blank
text with a raising upstream, the function's outcome is the propagated
exception, not a normal return. -/
theorem C3_counterexample :
    isBlank "hello" = false ∧
    analyze_transcript_chunkE "T" (.raises "RateLimitError") "hello" =
      .error "RateLimitError" :=
  ⟨by decide, rfl⟩

/-- C3 (amended): for every input text and every upstream round trip that
RETURNS output, analyze_transcript_chunk returns normally, and when that
output is not parseable it returns the envelope with parse_error set to
true, an empty questions sequence, and the original raw upstream text
preserved verbatim; an exception raised by the upstream call itself
(qna.py lines 62-70, outside the try) propagates out of the function. -/
theorem C3_parse_failure_envelope (now : String) (o : UpstreamOutcome)
    (text : String) (ht : isBlank text = false) :
    (∀ up, o = .returns up →
      analyze_transcript_chunkE now o text =
        .ok (analyze_transcript_chunk now up text) ∧
      (up.parsed = none →
        analyze_transcript_chunk now up text =
          (fallbackEnvelope now up.content, true) ∧
        Json.getField (fallbackEnvelope now up.content) "parse_error" =
          some (.bool true) ∧
        Json.getField (fallbackEnvelope now up.content) "questions" =
          some (.arr []) ∧
        Json.getField (fallbackEnvelope now up.content) "raw" =
          some (.str up.content))) ∧
    (∀ e, o = .raises e →
      analyze_transcript_chunkE now o text = .error e) := by
  constructor
  · rintro up rfl
    constructor
    · simp [analyze_transcript_chunkE, ht]
    · intro hp
      refine ⟨?_, rfl, rfl, rfl⟩
      simp [analyze_transcript_chunk, ht, hp]
  · rintro e rfl
    simp [analyze_transcript_chunkE, ht]

theorem C3_parse_failure_envelope_witness :
    isBlank "hello" = false ∧
    (analyze_transcript_chunkE "T" (.returns ⟨"not json", none⟩) "hello" =
      .ok (analyze_transcript_chunk "T" ⟨"not json", none⟩ "hello") ∧
    analyze_transcript_chunk "T" ⟨"not json", none⟩ "hello" =
      (fallbackEnvelope "T" "not json", true) ∧
    Json.getField (fallbackEnvelope "T" "not json") "parse_error" =
      some (.bool true) ∧
    Json.getField (fallbackEnvelope "T" "not json") "questions" =
      some (.arr []) ∧
    Json.getField (fallbackEnvelope "T" "not json") "raw" =
      some (.str "not json")) := by
  have h := (C3_parse_failure_envelope "T" (.returns ⟨"not json", none⟩) "hello"
      (by decide)).1 ⟨"not json", none⟩ rfl
  exact ⟨by decide, h.1, h.2 rfl⟩

/-- C5: during broadcast_to_meeting a send failure on one connection never
prevents the delivery attempt to any other: the attempted list equals the
snapshot of the meeting's members taken at the start of the call, whatever
the failure predicate says. -/
theorem C5_all_attempted (fails : Conn → Bool) (r : Registry) (m : MeetingId) :
    (broadcast_to_meeting fails r m).attempted = members r m :=
  broadcast_attempted fails r m

/-- C4: every connection whose send fails during broadcast_to_meeting is
removed from the meeting's set before the call returns, and the very next
/debug/meetings snapshot reports a count over exactly the surviving
members, so the failed connection is not counted. -/
theorem C4_dead_removed_before_return (fails : Conn → Bool) (r : Registry)
    (m : MeetingId) (c : Conn) (hmem : c ∈ members r m) (hf : fails c = true) :
    c ∉ members (broadcast_to_meeting fails r m).registry m ∧
    debugCount (broadcast_to_meeting fails r m).registry m =
      some (members (broadcast_to_meeting fails r m).registry m).length := by
  have hex : ∃ s, getClients r m = some s ∧ c ∈ s := by
    cases hg0 : getClients r m with
    | none =>
        rw [members, hg0] at hmem
        simp at hmem
    | some s =>
        refine ⟨s, rfl, ?_⟩
        rw [members, hg0] at hmem
        simpa using hmem
  obtain ⟨s, hs, hcs⟩ := hex
  have hdead : c ∈ (sendLoop fails (members r m)).2 :=
    (mem_sendLoop_snd fails _ c).2 ⟨hmem, hf⟩
  have hdne : ((sendLoop fails (members r m)).2).isEmpty = false := by
    cases hd : (sendLoop fails (members r m)).2 with
    | nil => rw [hd] at hdead; simp at hdead
    | cons a t => rfl
  have hgc : getClients (broadcast_to_meeting fails r m).registry m =
      some (s.filter (fun x => x ∉ (sendLoop fails (members r m)).2)) := by
    have hreg : (broadcast_to_meeting fails r m).registry =
        updateKey r m
          (fun t => t.filter (fun x => x ∉ (sendLoop fails (members r m)).2)) := by
      simp [broadcast_to_meeting, broadcastPrune, hdne]
    rw [hreg, getClients_updateKey_same, hs]
    rfl
  have hm2 : members (broadcast_to_meeting fails r m).registry m =
      s.filter (fun x => x ∉ (sendLoop fails (members r m)).2) := by
    rw [members, hgc]
    rfl
  constructor
  · rw [hm2]
    intro hcmem
    rw [List.mem_filter] at hcmem
    have h2 := hcmem.2
    simp [hdead] at h2
  · rw [debugCount_eq, hgc, hm2]
    rfl

theorem C4_dead_removed_before_return_witness :
    0 ∈ members [("m", [0, 1])] "m" ∧
    (fun x : Conn => decide (x = 0)) 0 = true ∧
    0 ∉ members
        (broadcast_to_meeting (fun x : Conn => decide (x = 0))
          [("m", [0, 1])] "m").registry "m" ∧
    debugCount (broadcast_to_meeting (fun x : Conn => decide (x = 0))
        [("m", [0, 1])] "m").registry "m" =
      some (members (broadcast_to_meeting (fun x : Conn => decide (x = 0))
        [("m", [0, 1])] "m").registry "m").length := by
  have h := C4_dead_removed_before_return (fun x : Conn => decide (x = 0))
    [("m", [0, 1])] "m" 0 (by decide) (by decide)
  exact ⟨by decide, by decide, h.1, h.2⟩

/-- C6: a broadcast addressed to meeting B only attempts delivery to
connections registered under B.  Along any trace in which each websocket
handle joins while not yet registered anywhere (which is how ws_endpoint
uses the registry: every accepted websocket is a brand-new object), a
connection registered under a different meeting A is never attempted. -/
theorem C6_no_cross_meeting_delivery (tr : List Event)
    (hfresh : FreshJoins [] tr = true) (A B : MeetingId) (c : Conn)
    (hAB : A ≠ B) (fails : Conn → Bool)
    (hc : c ∈ members (run tr) A) :
    c ∉ (broadcast_to_meeting fails (run tr) B).attempted := by
  intro hmem
  rw [broadcast_attempted] at hmem
  exact hAB (atMostOne_run tr hfresh c A B hc hmem)

theorem C6_no_cross_meeting_delivery_witness :
    FreshJoins [] [Event.join "A" 0, Event.join "B" 1] = true ∧
    "A" ≠ "B" ∧
    0 ∈ members (run [Event.join "A" 0, Event.join "B" 1]) "A" ∧
    0 ∉ (broadcast_to_meeting (fun _ => false)
          (run [Event.join "A" 0, Event.join "B" 1]) "B").attempted :=
  ⟨by decide, by decide, by decide,
   C6_no_cross_meeting_delivery [Event.join "A" 0, Event.join "B" 1]
     (by decide) "A" "B" 0 (by decide) (fun _ => false) (by decide)⟩

/-- C7: for blank (empty or whitespace-only) text, the ingest endpoint
performs no broadcast at all, never invokes the analysis, and returns the
skipped acknowledgment. -/
theorem C7_blank_ingest_skipped (now : String) (up : Upstream)
    (meeting_id text : String) (h : isBlank text = true) :
    (ingest_endpoint now up meeting_id text).broadcasts = [] ∧
    (ingest_endpoint now up meeting_id text).analysisCalled = false ∧
    (ingest_endpoint now up meeting_id text).response =
      .obj [("ok", .bool true), ("skipped", .bool true)] := by
  refine ⟨?_, ?_, ?_⟩ <;> simp [ingest_endpoint, h]

theorem C7_blank_ingest_skipped_witness :
    isBlank "   " = true ∧
    ((ingest_endpoint "T" ⟨"x", none⟩ "m" "   ").broadcasts = [] ∧
    (ingest_endpoint "T" ⟨"x", none⟩ "m" "   ").analysisCalled = false ∧
    (ingest_endpoint "T" ⟨"x", none⟩ "m" "   ").response =
      .obj [("ok", .bool true), ("skipped", .bool true)]) :=
  ⟨by decide, C7_blank_ingest_skipped "T" ⟨"x", none⟩ "m" "   " (by decide)⟩

/-- C8: per schedule of wait outcomes, the keep-alive loop sends exactly
one heartbeat for each 30-time-unit idle interval that elapses before the
connection closes (a `timeout` outcome), and nothing else: never zero for
a full idle interval and never more than one per interval. -/
theorem C8_one_heartbeat_per_idle_interval (sched : List WaitOutcome) :
    wsKeepAliveSends sched =
      List.replicate
        ((sched.takeWhile (fun o => ¬ o.isDisconnect)).countP WaitOutcome.isTimeout)
        .heartbeat := by
  induction sched with
  | nil => rfl
  | cons o rest ih =>
      cases o with
      | timeout =>
          simp [wsKeepAliveSends, List.takeWhile_cons, WaitOutcome.isDisconnect,
            WaitOutcome.isTimeout, List.countP_cons, ih, List.replicate_succ]
      | message s =>
          simp [wsKeepAliveSends, List.takeWhile_cons, WaitOutcome.isDisconnect,
            WaitOutcome.isTimeout, List.countP_cons, ih]
      | disconnect =>
          simp [wsKeepAliveSends, List.takeWhile_cons, WaitOutcome.isDisconnect]

/-- C10: for blank text, analyze_transcript_chunk never calls upstream and
returns the envelope with an empty questions list, a (non-null) string
timestamp, the fixed safety note, and no parse_error flag. -/
theorem C10_blank_no_upstream (now : String) (up : Upstream) (text : String)
    (h : isBlank text = true) :
    analyze_transcript_chunk now up text =
      (.obj [("timestamp", .str (now ++ "Z")),
             ("questions", .arr []),
             ("note", .str SAFETY_NOTE)], false) ∧
    Json.getField (analyze_transcript_chunk now up text).1 "parse_error" = none := by
  constructor
  · simp [analyze_transcript_chunk, h]
  · simp [analyze_transcript_chunk, h, Json.getField, getPairs]

theorem C10_blank_no_upstream_witness :
    isBlank " " = true ∧
    (analyze_transcript_chunk "T" ⟨"x", some .null⟩ " " =
      (.obj [("timestamp", .str ("T" ++ "Z")),
             ("questions", .arr []),
             ("note", .str SAFETY_NOTE)], false) ∧
    Json.getField (analyze_transcript_chunk "T" ⟨"x", some .null⟩ " ").1
      "parse_error" = none) :=
  ⟨by decide, C10_blank_no_upstream "T" ⟨"x", some .null⟩ " " (by decide)⟩

/-- C9 counterexample: the claim over-promises what the error identifies.
A GET callback with no code but with `error=access_denied` in the query is
a request that carries no authorization code, yet the 400 envelope it gets
back surfaces the authorize-step error (`stage: "authorize"`,
`error: "access_denied"`) and nowhere identifies the missing-parameter
condition (`missing_code`). -/
theorem C9_counterexample :
    (oauth_callback (fun _ => .ok .null)
        ⟨"GET", [("error", "access_denied")], none⟩).status = .num 400 ∧
    Json.getField (oauth_callback (fun _ => .ok .null)
        ⟨"GET", [("error", "access_denied")], none⟩).body "error" =
      some (.str "access_denied") ∧
    ¬ Json.getField (oauth_callback (fun _ => .ok .null)
        ⟨"GET", [("error", "access_denied")], none⟩).body "error" =
      some (.str "missing_code") := by
  refine ⟨rfl, rfl, ?_⟩
  intro hcontra
  have heval : Json.getField (oauth_callback (fun _ => .ok .null)
      ⟨"GET", [("error", "access_denied")], none⟩).body "error" =
      some (.str "access_denied") := rfl
  rw [heval] at hcontra
  have hs : "access_denied" = "missing_code" := by
    injection hcontra with h1
    injection h1
  exact absurd hs (by decide)

/-- C9 (amended): for every OAuth callback request that carries no
authorization code (in neither query parameters nor, for POST, the form
body), the callback returns a structured error response with status 400
(never an unhandled fault, since the form-parse failure path is caught):
when the request carries no authorize-step `error` parameter either, the
envelope identifies the missing-parameter condition (`missing_code`);
when an authorize-step `error` parameter is present, the envelope instead
surfaces that error under `stage: "authorize"`. -/
theorem C9_no_code_400 (ex : ExchangeOracle) (req : OAuthRequest)
    (hq : truthy (qget req.query "code") = false)
    (hf : truthy (match req.form with
                  | some f => qget f "code"
                  | none => none) = false) :
    (oauth_callback ex req).status = .num 400 ∧
    (truthy (qget req.query "error") = true →
      Json.getField (oauth_callback ex req).body "stage" =
        some (.str "authorize") ∧
      Json.getField (oauth_callback ex req).body "error" =
        some (.str ((qget req.query "error").getD ""))) ∧
    (truthy (qget req.query "error") = false →
      Json.getField (oauth_callback ex req).body "error" =
        some (.str "missing_code")) := by
  have hcode : truthy
      (if truthy (qget req.query "code") = false ∧ req.method = "POST" then
        match req.form with
        | some f => qget f "code"
        | none => qget req.query "code"
       else qget req.query "code") = false := by
    split
    · cases hform : req.form with
      | some f => rw [hform] at hf; exact hf
      | none => exact hq
    · exact hq
  simp only [oauth_callback]
  rw [if_pos (by simp [hcode])]
  by_cases herr : truthy (qget req.query "error") = true
  · rw [if_pos (by simp [herr])]
    refine ⟨rfl, fun _ => ⟨rfl, rfl⟩, fun hcontra => ?_⟩
    rw [herr] at hcontra
    exact absurd hcontra (by decide)
  · rw [if_neg (by simpa using herr)]
    refine ⟨rfl, fun h1 => absurd h1 herr, fun _ => rfl⟩

theorem C9_no_code_400_witness :
    truthy (qget ([] : List (String × String)) "code") = false ∧
    ((oauth_callback (fun _ => .ok .null) ⟨"GET", [], none⟩).status = .num 400 ∧
    (truthy (qget ([] : List (String × String)) "error") = false →
      Json.getField (oauth_callback (fun _ => .ok .null)
          ⟨"GET", [], none⟩).body "error" = some (.str "missing_code"))) :=
  ⟨by decide,
   (C9_no_code_400 (fun _ => .ok .null) ⟨"GET", [], none⟩ (by decide) (by decide)).1,
   (C9_no_code_400 (fun _ => .ok .null) ⟨"GET", [], none⟩ (by decide) (by decide)).2.2⟩

end ZoomQA
